import Mathlib

/-!
# Verification of the subtuner optimization pipeline

A shallow embedding of the core optimization pipeline of the `subtuner`
repository (`src/subtuner/optimization/…` and the cue model of
`src/subtuner/parsers/base.py`), together with theorems settling the
frozen claims about it.

Times are embedded as rationals (`ℚ`); Python floats carry exact decimal
literals in every concrete scenario considered here, so the rational model
is faithful on all comparisons that decide the claims.  The `metadata`
payload of a cue is opaque to the pipeline (it is only copied around), so
it is not modelled.  Wall-clock timing of the statistics record is not
modelled (`processing_time` stays `0`).
-/

section RatKernelEval

attribute [local semireducible] Rat.add Rat.sub Rat.mul Rat.inv Rat.ofScientific

set_option maxRecDepth 100000

set_option maxHeartbeats 1000000

namespace Subtuner

/-- The `\x7b` character, written via its code point. -/
def lbrace : Char := Char.ofNat 123

/-- The `\x7d` character, written via its code point. -/
def rbrace : Char := Char.ofNat 125

/-- One scanning pass of `re.sub(r'O[^C]*C', '', text)` for an opening
character `o` and a closing character `c`: starting at an occurrence of
`o`, everything up to and including the first following `c` is removed;
an `o` with no later `c` is kept verbatim.  `buf` holds the (reversed)
characters of a tentatively open match. -/
def removeDelim (o c : Char) : List Char → List Char → List Char
  | [], buf => buf.reverse
  | x :: xs, buf =>
    if buf.isEmpty then
      if x = o then removeDelim o c xs [x]
      else x :: removeDelim o c xs []
    else
      if x = c then removeDelim o c xs []
      else removeDelim o c xs (x :: buf)

/-- Python `str.strip()`: drop whitespace from both ends. -/
def stripChars (l : List Char) : List Char :=
  ((l.dropWhile Char.isWhitespace).reverse.dropWhile Char.isWhitespace).reverse

/-- `Subtitle` from `src/subtuner/parsers/base.py`: one timed cue.
The opaque `metadata` dictionary is never read by the pipeline and is
omitted from the embedding. -/
structure Subtitle where
  index : ℕ
  start_time : ℚ
  end_time : ℚ
  text : String
deriving DecidableEq, Repr

/-- `Subtitle.duration` property. -/
def Subtitle.duration (s : Subtitle) : ℚ := s.end_time - s.start_time

/-- `Subtitle.char_count`: strip `<…>` tags, then `\x7b…\x7d` tags, trim
whitespace, and count the remaining characters. -/
def Subtitle.char_count (s : Subtitle) : ℕ :=
  (stripChars (removeDelim lbrace rbrace (removeDelim '<' '>' s.text.data []) [])).length

/-- `Subtitle.with_start_time`. -/
def Subtitle.with_start_time (s : Subtitle) (t : ℚ) : Subtitle :=
  { index := s.index, start_time := t, end_time := s.end_time, text := s.text }

/-- `Subtitle.with_end_time`. -/
def Subtitle.with_end_time (s : Subtitle) (t : ℚ) : Subtitle :=
  { index := s.index, start_time := s.start_time, end_time := t, text := s.text }

/-- `Subtitle.with_times`. -/
def Subtitle.with_times (s : Subtitle) (a b : ℚ) : Subtitle :=
  { index := s.index, start_time := a, end_time := b, text := s.text }

/-- `Subtitle.validate`: non-negative start, end after start, text non-empty
after trimming. -/
def Subtitle.validate (s : Subtitle) : Bool :=
  if s.start_time < 0 then false
  else if s.end_time ≤ s.start_time then false
  else if (stripChars s.text.data).isEmpty then false
  else true

/-- `OptimizationConfig` from `src/subtuner/config.py`, with its default
values. -/
structure OptimizationConfig where
  chars_per_sec : ℚ := 20
  max_duration : ℚ := 8
  min_duration : ℚ := 1
  min_gap : ℚ := 1/20
  short_threshold : ℚ := 4/5
  long_threshold : ℚ := 3
  max_anticipation : ℚ := 1/2
deriving DecidableEq, Repr

/-- `OptimizationConfig.validate` as a predicate: the ranges checked in
`src/subtuner/config.py` (a violating config raises before the pipeline
runs). -/
def OptimizationConfig.Valid (c : OptimizationConfig) : Prop :=
  10 ≤ c.chars_per_sec ∧ c.chars_per_sec ≤ 40 ∧
  3 ≤ c.max_duration ∧ c.max_duration ≤ 15 ∧
  1/2 ≤ c.min_duration ∧ c.min_duration ≤ 2 ∧
  c.min_duration < c.max_duration ∧
  1/100 ≤ c.min_gap ∧ c.min_gap ≤ 1/5 ∧
  1/2 ≤ c.short_threshold ∧ c.short_threshold ≤ 3/2 ∧
  2 ≤ c.long_threshold ∧ c.long_threshold ≤ 6 ∧
  c.short_threshold < c.long_threshold ∧
  0 ≤ c.max_anticipation ∧ c.max_anticipation ≤ 1

instance (c : OptimizationConfig) : Decidable c.Valid := by
  unfold OptimizationConfig.Valid; infer_instance

/-- `OptimizationStatistics` from `src/subtuner/optimization/statistics.py`.
`start_time`/wall-clock timing is not modelled; `processing_time` stays `0`. -/
structure OptimizationStatistics where
  track_index : ℕ := 0
  original_subtitle_count : ℕ := 0
  final_subtitle_count : ℕ := 0
  merged_subtitles : ℕ := 0
  duration_adjustments : ℕ := 0
  total_duration_change : ℚ := 0
  duration_changes : List ℚ := []
  rebalanced_pairs : ℕ := 0
  total_time_transferred : ℚ := 0
  rebalancing_transfers : List ℚ := []
  anticipated_subtitles : ℕ := 0
  total_anticipation : ℚ := 0
  anticipation_amounts : List ℚ := []
  min_duration_fixes : ℕ := 0
  gap_fixes : ℕ := 0
  chronology_fixes : ℕ := 0
  invalid_removed : ℕ := 0
  processing_time : ℚ := 0
deriving DecidableEq, Repr

/-- `OptimizationStatistics.add_duration_change`. -/
def OptimizationStatistics.add_duration_change
    (st : OptimizationStatistics) (change : ℚ) : OptimizationStatistics :=
  if 1/100 < |change| then
    { st with
      duration_adjustments := st.duration_adjustments + 1
      total_duration_change := st.total_duration_change + change
      duration_changes := st.duration_changes ++ [change] }
  else st

/-- `OptimizationStatistics.add_rebalancing_transfer`. -/
def OptimizationStatistics.add_rebalancing_transfer
    (st : OptimizationStatistics) (transfer : ℚ) : OptimizationStatistics :=
  if 1/100 < transfer then
    { st with
      rebalanced_pairs := st.rebalanced_pairs + 1
      total_time_transferred := st.total_time_transferred + transfer
      rebalancing_transfers := st.rebalancing_transfers ++ [transfer] }
  else st

/-- `OptimizationStatistics.add_anticipation`. -/
def OptimizationStatistics.add_anticipation
    (st : OptimizationStatistics) (anticipation : ℚ) : OptimizationStatistics :=
  if 1/100 < anticipation then
    { st with
      anticipated_subtitles := st.anticipated_subtitles + 1
      total_anticipation := st.total_anticipation + anticipation
      anticipation_amounts := st.anticipation_amounts ++ [anticipation] }
  else st

/-! ## Phase 1: duration adjustment
(`src/subtuner/optimization/algorithms/duration_adjuster.py`) -/

/-- `DurationAdjuster.adjust_duration`.  `none` for `next?` models the last
cue, whose available window is `float('inf')`; the unbounded minimum is the
target itself. -/
def adjust_duration (current : Subtitle) (next? : Option Subtitle)
    (cfg : OptimizationConfig) (is_overlap_allowed : Bool) : Subtitle :=
  let ideal_duration : ℚ := (current.char_count : ℚ) / cfg.chars_per_sec
  let target_duration := max cfg.min_duration (min cfg.max_duration ideal_duration)
  let new_duration :=
    match next? with
    | some n =>
      if is_overlap_allowed then
        min target_duration (n.end_time - current.start_time)
      else
        min target_duration ((n.start_time - cfg.min_gap) - current.start_time)
    | none => target_duration
  let final_duration := max new_duration current.duration
  let final_duration := if final_duration ≤ 0 then current.duration else final_duration
  current.with_end_time (current.start_time + final_duration)

/-- The `enumerate` loop of `DurationAdjuster.process`: each cue is adjusted
against its successor, and significant duration changes are recorded. -/
def durationLoop (cfg : OptimizationConfig) (allowed : ℕ × ℕ → Bool) :
    ℕ → List Subtitle → OptimizationStatistics →
    List Subtitle × OptimizationStatistics
  | _, [], st => ([], st)
  | i, s :: rest, st =>
    let next? := rest.head?
    let is_overlap_allowed :=
      match next? with
      | some _ => allowed (i, i + 1)
      | none => false
    let adjusted := adjust_duration s next? cfg is_overlap_allowed
    let change := adjusted.duration - s.duration
    let st := if 1/100 < |change| then st.add_duration_change change else st
    let r := durationLoop cfg allowed (i + 1) rest st
    (adjusted :: r.1, r.2)

/-- `DurationAdjuster.process`.  The `allowed` function is the
`allowed_overlaps` set (defaulting to the empty set when the caller passes
nothing, as the engine does). -/
def durationProcess (subs : List Subtitle) (cfg : OptimizationConfig)
    (st : OptimizationStatistics) (allowed : ℕ × ℕ → Bool) :
    List Subtitle × OptimizationStatistics :=
  if subs.isEmpty then (subs, st) else durationLoop cfg allowed 0 subs st

/-! ## Phase 2: temporal rebalancing
(`src/subtuner/optimization/algorithms/rebalancer.py`) -/

/-- `TemporalRebalancer.should_rebalance`. -/
def should_rebalance (current next_subtitle : Subtitle)
    (cfg : OptimizationConfig) : Bool :=
  decide (current.duration < cfg.short_threshold) &&
  decide (cfg.long_threshold < next_subtitle.duration)

/-- `TemporalRebalancer.validate_rebalancing`: the sequence of rejection
checks, as a conjunction of the conditions that must hold for acceptance. -/
def validate_rebalancing (original_current _original_next new_current new_next : Subtitle)
    (cfg : OptimizationConfig) : Bool :=
  decide (new_current.start_time < new_current.end_time) &&
  decide (new_next.start_time < new_next.end_time) &&
  decide (cfg.min_gap ≤ new_next.start_time - new_current.end_time) &&
  decide (original_current.duration < new_current.duration) &&
  decide (cfg.min_duration ≤ new_next.duration) &&
  decide (original_current.duration ≤ new_next.duration)

/-- `TemporalRebalancer.rebalance_pair`. -/
def rebalance_pair (current next_subtitle : Subtitle)
    (cfg : OptimizationConfig) : Subtitle × Subtitle × ℚ :=
  if should_rebalance current next_subtitle cfg then
    let current_deficit := cfg.short_threshold - current.duration
    let next_surplus := next_subtitle.duration - cfg.long_threshold
    let transfer_amount := min current_deficit next_surplus
    if transfer_amount ≤ 0 then (current, next_subtitle, 0)
    else
      let new_current_end := current.end_time + transfer_amount
      let new_next_start := new_current_end + cfg.min_gap
      if next_subtitle.end_time ≤ new_next_start then (current, next_subtitle, 0)
      else
        let new_current := current.with_end_time new_current_end
        let new_next := next_subtitle.with_start_time new_next_start
        if validate_rebalancing current next_subtitle new_current new_next cfg then
          (new_current, new_next, transfer_amount)
        else (current, next_subtitle, 0)
  else (current, next_subtitle, 0)

/-- The `while i < len(rebalanced) - 1` loop of `TemporalRebalancer.process`:
when a transfer succeeds, the updated right cue becomes the left member of
the next pair.  The head of the working list is kept as a separate argument
so the recursion is structural. -/
def rebalanceLoop (cfg : OptimizationConfig) :
    Subtitle → List Subtitle → OptimizationStatistics →
    List Subtitle × OptimizationStatistics
  | x, [], st => ([x], st)
  | x, y :: rest, st =>
    let r := rebalance_pair x y cfg
    if 0 < r.2.2 then
      let st := st.add_rebalancing_transfer r.2.2
      let rec' := rebalanceLoop cfg r.2.1 rest st
      (r.1 :: rec'.1, rec'.2)
    else
      let rec' := rebalanceLoop cfg y rest st
      (x :: rec'.1, rec'.2)

/-- `TemporalRebalancer.process`. -/
def rebalancerProcess (subs : List Subtitle) (cfg : OptimizationConfig)
    (st : OptimizationStatistics) : List Subtitle × OptimizationStatistics :=
  if subs.length < 2 then (subs, st)
  else
    match subs with
    | [] => ([], st)
    | x :: rest => rebalanceLoop cfg x rest st

/-! ## Phase 3: anticipatory offset
(`src/subtuner/optimization/algorithms/anticipator.py`) -/

/-- `AnticipationAdjuster.calculate_max_anticipation`. -/
def calculate_max_anticipation (current : Subtitle) (prev? : Option Subtitle)
    (cfg : OptimizationConfig) : ℚ :=
  match prev? with
  | none => cfg.max_anticipation
  | some p => max 0 ((current.start_time - p.end_time) - cfg.min_gap)

/-- `AnticipationAdjuster.is_beneficial` (with the default
`min_benefit = 0.1`). -/
def is_beneficial (s : Subtitle) (anticipation : ℚ)
    (cfg : OptimizationConfig) : Bool :=
  if anticipation ≤ 0 then false
  else if anticipation < 1/10 then false
  else
    let ideal_duration : ℚ := (s.char_count : ℚ) / cfg.chars_per_sec
    if ideal_duration ≤ s.duration then
      if cfg.min_duration ≤ s.duration then false else true
    else true

/-- `AnticipationAdjuster.validate_anticipation`. -/
def validate_anticipation (original anticipated : Subtitle)
    (prev? : Option Subtitle) (cfg : OptimizationConfig) : Bool :=
  if anticipated.end_time ≤ anticipated.start_time then false
  else if anticipated.duration ≤ original.duration then false
  else
    match prev? with
    | some p =>
      if anticipated.start_time - p.end_time < cfg.min_gap then false
      else if anticipated.start_time < 0 then false
      else true
    | none =>
      if anticipated.start_time < 0 then false
      else true

/-- `AnticipationAdjuster.apply_anticipation`. -/
def apply_anticipation (current : Subtitle) (prev? : Option Subtitle)
    (cfg : OptimizationConfig) : Subtitle × ℚ :=
  let max_offset := calculate_max_anticipation current prev? cfg
  if max_offset ≤ 0 then (current, 0)
  else
    let actual_offset := min max_offset cfg.max_anticipation
    if is_beneficial current actual_offset cfg then
      let new_subtitle := current.with_start_time (current.start_time - actual_offset)
      if validate_anticipation current new_subtitle prev? cfg then
        (new_subtitle, actual_offset)
      else (current, 0)
    else (current, 0)

/-- The loop of `AnticipationAdjuster.process`: each cue is anticipated
against the already-anticipated predecessor. -/
def anticipatorLoop (cfg : OptimizationConfig) :
    Option Subtitle → List Subtitle → OptimizationStatistics →
    List Subtitle × OptimizationStatistics
  | _, [], st => ([], st)
  | prev?, s :: rest, st =>
    let r := apply_anticipation s prev? cfg
    let st := if 0 < r.2 then st.add_anticipation r.2 else st
    let rec' := anticipatorLoop cfg (some r.1) rest st
    (r.1 :: rec'.1, rec'.2)

/-- `AnticipationAdjuster.process`. -/
def anticipatorProcess (subs : List Subtitle) (cfg : OptimizationConfig)
    (st : OptimizationStatistics) : List Subtitle × OptimizationStatistics :=
  if subs.isEmpty then (subs, st) else anticipatorLoop cfg none subs st

/-! ## Phase 4: constraints validation
(`src/subtuner/optimization/algorithms/validator.py`) -/

/-- `ConstraintsValidator.fix_minimum_duration`. -/
def fix_minimum_duration (s : Subtitle) (cfg : OptimizationConfig)
    (st : OptimizationStatistics) : Subtitle × OptimizationStatistics :=
  if cfg.min_duration ≤ s.duration then (s, st)
  else
    ( s.with_end_time (s.start_time + cfg.min_duration),
      { st with min_duration_fixes := st.min_duration_fixes + 1 } )

/-- `ConstraintsValidator.fix_minimum_gap`: only gaps in `[-0.5, min_gap)`
are repaired; a more significant overlap is treated as intentional. -/
def fix_minimum_gap (current : Subtitle) (prev? : Option Subtitle)
    (cfg : OptimizationConfig) (st : OptimizationStatistics) :
    Subtitle × OptimizationStatistics :=
  match prev? with
  | none => (current, st)
  | some p =>
    let current_gap := current.start_time - p.end_time
    if cfg.min_gap ≤ current_gap then (current, st)
    else if current_gap < -(1/2) then (current, st)
    else
      let required_start := p.end_time + cfg.min_gap
      ( current.with_times required_start (required_start + current.duration),
        { st with gap_fixes := st.gap_fixes + 1 } )

/-- `ConstraintsValidator.is_chronologically_valid`. -/
def is_chronologically_valid (current : Subtitle) (prev? : Option Subtitle) : Bool :=
  match prev? with
  | none => true
  | some p => decide (p.start_time ≤ current.start_time)

/-- `ConstraintsValidator.has_valid_time_range`. -/
def has_valid_time_range (s : Subtitle) : Bool :=
  decide (0 ≤ s.start_time) && decide (s.start_time < s.end_time) &&
  decide (0 < s.duration)

/-- `ConstraintsValidator.apply_all_fixes`.  The Python function is declared
`Optional` but every return path yields a cue, so it is modelled total.
The unused `next_subtitle` argument is omitted. -/
def apply_all_fixes (current : Subtitle) (prev? : Option Subtitle)
    (cfg : OptimizationConfig) (st : OptimizationStatistics)
    (is_allowed_overlap : Bool) : Subtitle × OptimizationStatistics :=
  let r1 := fix_minimum_duration current cfg st
  let r2 :=
    if is_allowed_overlap then r1
    else fix_minimum_gap r1.1 prev? cfg r1.2
  if is_chronologically_valid r2.1 prev? then
    if has_valid_time_range r2.1 then r2
    else (current, r2.2)
  else
    (current, { r2.2 with chronology_fixes := r2.2.chronology_fixes + 1 })

/-- The overlap-exemption lookup of `ConstraintsValidator.validate_and_fix`:
`prev_index = len(validated) - 1`, and the pair `(prev_index, i)` is looked
up only when `prev_index ≥ 0`. -/
def overlap_lookup (allowed : ℕ × ℕ → Bool) (validatedLen i : ℕ) : Bool :=
  if validatedLen = 0 then false else allowed (validatedLen - 1, i)

/-- The `enumerate` loop of `ConstraintsValidator.validate_and_fix`. -/
def validateLoop (cfg : OptimizationConfig) (allowed : ℕ × ℕ → Bool) :
    ℕ → List Subtitle → List Subtitle → OptimizationStatistics →
    List Subtitle × OptimizationStatistics
  | _, validated, [], st => (validated, st)
  | i, validated, current :: rest, st =>
    let prev? := validated.getLast?
    let is_allowed_overlap := overlap_lookup allowed validated.length i
    let r := apply_all_fixes current prev? cfg st is_allowed_overlap
    if r.1.validate then
      validateLoop cfg allowed (i + 1) (validated ++ [r.1]) rest r.2
    else
      validateLoop cfg allowed (i + 1) validated rest
        { r.2 with invalid_removed := r.2.invalid_removed + 1 }

/-- `ConstraintsValidator.process` / `validate_and_fix`. -/
def validatorProcess (subs : List Subtitle) (cfg : OptimizationConfig)
    (st : OptimizationStatistics) (allowed : ℕ × ℕ → Bool) :
    List Subtitle × OptimizationStatistics :=
  if subs.isEmpty then (subs, st) else validateLoop cfg allowed 0 [] subs st

/-! ## Orchestrator (`src/subtuner/optimization/engine.py`) -/

/-- `OptimizationEngine._detect_original_overlaps`, as the membership
function of the produced set: `(i, j)` is registered iff `j = i + 1`, both
positions exist, and `subs[i].end_time > subs[j].start_time`. -/
def detect_original_overlaps (subs : List Subtitle) : ℕ × ℕ → Bool :=
  fun p =>
    decide (p.2 = p.1 + 1) &&
    match subs.get? p.1, subs.get? p.2 with
    | some a, some b => decide (b.start_time < a.end_time)
    | _, _ => false

/-- `OptimizationEngine._apply_optimization_pipeline`.  Note: the engine
computes the overlap registry but passes it only to the validator; the
duration pass is invoked without it, so its `allowed_overlaps` set defaults
to empty (`fun _ => false`). -/
def apply_optimization_pipeline (subs : List Subtitle)
    (cfg : OptimizationConfig) (st : OptimizationStatistics) :
    List Subtitle × OptimizationStatistics :=
  let original_overlaps := detect_original_overlaps subs
  let r1 := durationProcess subs cfg st (fun _ => false)
  let r2 := rebalancerProcess r1.1 cfg r1.2
  let r3 := anticipatorProcess r2.1 cfg r2.2
  validatorProcess r3.1 cfg r3.2 original_overlaps

/-- `OptimizationEngine.optimize` (with `track_index = 0`): empty input
short-circuits to an empty result with fresh statistics; otherwise the
four-phase pipeline runs and the final counts are recorded.  Wall-clock
timing is not modelled. -/
def optimize (subs : List Subtitle) (cfg : OptimizationConfig) :
    List Subtitle × OptimizationStatistics :=
  if subs.isEmpty then ([], {})
  else
    let st : OptimizationStatistics := { original_subtitle_count := subs.length }
    let r := apply_optimization_pipeline subs cfg st
    (r.1, { r.2 with final_subtitle_count := r.1.length })

/-! ## Basic lemmas about the cue model -/

@[simp] theorem with_end_time_start (s : Subtitle) (t : ℚ) :
    (s.with_end_time t).start_time = s.start_time := rfl

@[simp] theorem with_end_time_end (s : Subtitle) (t : ℚ) :
    (s.with_end_time t).end_time = t := rfl

@[simp] theorem with_end_time_text (s : Subtitle) (t : ℚ) :
    (s.with_end_time t).text = s.text := rfl

@[simp] theorem with_end_time_index (s : Subtitle) (t : ℚ) :
    (s.with_end_time t).index = s.index := rfl

@[simp] theorem with_start_time_start (s : Subtitle) (t : ℚ) :
    (s.with_start_time t).start_time = t := rfl

@[simp] theorem with_start_time_end (s : Subtitle) (t : ℚ) :
    (s.with_start_time t).end_time = s.end_time := rfl

@[simp] theorem with_start_time_text (s : Subtitle) (t : ℚ) :
    (s.with_start_time t).text = s.text := rfl

@[simp] theorem with_start_time_index (s : Subtitle) (t : ℚ) :
    (s.with_start_time t).index = s.index := rfl

@[simp] theorem with_times_start (s : Subtitle) (a b : ℚ) :
    (s.with_times a b).start_time = a := rfl

@[simp] theorem with_times_end (s : Subtitle) (a b : ℚ) :
    (s.with_times a b).end_time = b := rfl

@[simp] theorem with_times_text (s : Subtitle) (a b : ℚ) :
    (s.with_times a b).text = s.text := rfl

@[simp] theorem with_times_index (s : Subtitle) (a b : ℚ) :
    (s.with_times a b).index = s.index := rfl

@[simp] theorem with_start_time_duration (s : Subtitle) (t : ℚ) :
    (s.with_start_time t).duration = s.end_time - t := rfl

@[simp] theorem with_end_time_duration (s : Subtitle) (t : ℚ) :
    (s.with_end_time t).duration = t - s.start_time := rfl

@[simp] theorem with_times_duration (s : Subtitle) (a b : ℚ) :
    (s.with_times a b).duration = b - a := rfl

theorem validate_start_nonneg {s : Subtitle} (h : s.validate = true) :
    0 ≤ s.start_time := by
  unfold Subtitle.validate at h
  split_ifs at h with h1 h2 h3
  exact le_of_not_lt h1

theorem validate_start_lt_end {s : Subtitle} (h : s.validate = true) :
    s.start_time < s.end_time := by
  unfold Subtitle.validate at h
  split_ifs at h with h1 h2 h3
  exact lt_of_not_le h2

theorem config_min_gap_pos {cfg : OptimizationConfig} (h : cfg.Valid) :
    0 < cfg.min_gap := by
  obtain ⟨-, -, -, -, -, -, -, h8, -⟩ := h
  linarith

theorem config_min_duration_pos {cfg : OptimizationConfig} (h : cfg.Valid) :
    0 < cfg.min_duration := by
  obtain ⟨-, -, -, -, h5, -⟩ := h
  linarith

theorem config_max_anticipation_nonneg {cfg : OptimizationConfig} (h : cfg.Valid) :
    0 ≤ cfg.max_anticipation := by
  obtain ⟨-, -, -, -, -, -, -, -, -, -, -, -, -, -, h15, -⟩ := h
  exact h15

/-! ## Frame lemmas for the duration pass -/

theorem adjust_duration_start (c : Subtitle) (n? : Option Subtitle)
    (cfg : OptimizationConfig) (f : Bool) :
    (adjust_duration c n? cfg f).start_time = c.start_time := rfl

theorem adjust_duration_text (c : Subtitle) (n? : Option Subtitle)
    (cfg : OptimizationConfig) (f : Bool) :
    (adjust_duration c n? cfg f).text = c.text := rfl

theorem adjust_duration_index (c : Subtitle) (n? : Option Subtitle)
    (cfg : OptimizationConfig) (f : Bool) :
    (adjust_duration c n? cfg f).index = c.index := rfl

theorem end_le_of_final_duration (y : ℚ) (c : Subtitle) :
    c.end_time ≤ c.start_time + (if y ⊔ c.duration ≤ 0 then c.duration else y ⊔ c.duration) := by
  split_ifs with h
  · simp [Subtitle.duration]
  · have := le_max_right y c.duration
    simp only [Subtitle.duration] at this ⊢
    linarith

theorem adjust_duration_end_le (c : Subtitle) (n? : Option Subtitle)
    (cfg : OptimizationConfig) (f : Bool) :
    c.end_time ≤ (adjust_duration c n? cfg f).end_time := by
  unfold adjust_duration
  simp only [with_end_time_end]
  exact end_le_of_final_duration _ c

theorem durationLoop_frame (cfg : OptimizationConfig) (allowed : ℕ × ℕ → Bool) :
    ∀ (subs : List Subtitle) (i : ℕ) (st : OptimizationStatistics),
      (durationLoop cfg allowed i subs st).1.map Subtitle.index = subs.map Subtitle.index ∧
      (durationLoop cfg allowed i subs st).1.map Subtitle.start_time = subs.map Subtitle.start_time ∧
      (durationLoop cfg allowed i subs st).1.map Subtitle.text = subs.map Subtitle.text ∧
      List.Forall₂ (fun a b => a.end_time ≤ b.end_time) subs (durationLoop cfg allowed i subs st).1
  | [], i, st => by simp [durationLoop]
  | s :: rest, i, st => by
    have ih := durationLoop_frame cfg allowed rest (i + 1)
    simp only [durationLoop, List.map_cons]
    constructor
    · simp [adjust_duration_index, (ih _).1]
    constructor
    · simp [adjust_duration_start, (ih _).2.1]
    constructor
    · simp [adjust_duration_text, (ih _).2.2.1]
    · exact List.Forall₂.cons (adjust_duration_end_le s _ cfg _) (ih _).2.2.2

/-- **C8.**  For every input sequence and configuration (whether or not an
overlap set is supplied), the duration pass returns a sequence of the same
length in which every cue keeps its original position (`index`), start time
and text, and its end time is never moved earlier. -/
theorem c8_duration_pass_frame (subs : List Subtitle) (cfg : OptimizationConfig)
    (st : OptimizationStatistics) (allowed : ℕ × ℕ → Bool) :
    (durationProcess subs cfg st allowed).1.map Subtitle.index = subs.map Subtitle.index ∧
    (durationProcess subs cfg st allowed).1.map Subtitle.start_time = subs.map Subtitle.start_time ∧
    (durationProcess subs cfg st allowed).1.map Subtitle.text = subs.map Subtitle.text ∧
    List.Forall₂ (fun a b => a.end_time ≤ b.end_time) subs (durationProcess subs cfg st allowed).1 := by
  unfold durationProcess
  split_ifs with h
  · rcases List.isEmpty_iff.mp h with rfl
    simp
  · exact durationLoop_frame cfg allowed subs 0 st

/-- **C9.**  The empty input short-circuits: `optimize` returns an empty
sequence together with fresh, all-zero statistics, and (being a total
function) raises no error. -/
theorem c9_empty_input (cfg : OptimizationConfig) :
    (optimize [] cfg).1 = [] ∧
    (optimize [] cfg).2.original_subtitle_count = 0 ∧
    (optimize [] cfg).2.final_subtitle_count = 0 ∧
    (optimize [] cfg).2.merged_subtitles = 0 ∧
    (optimize [] cfg).2.duration_adjustments = 0 ∧
    (optimize [] cfg).2.total_duration_change = 0 ∧
    (optimize [] cfg).2.rebalanced_pairs = 0 ∧
    (optimize [] cfg).2.total_time_transferred = 0 ∧
    (optimize [] cfg).2.anticipated_subtitles = 0 ∧
    (optimize [] cfg).2.total_anticipation = 0 ∧
    (optimize [] cfg).2.min_duration_fixes = 0 ∧
    (optimize [] cfg).2.gap_fixes = 0 ∧
    (optimize [] cfg).2.chronology_fixes = 0 ∧
    (optimize [] cfg).2.invalid_removed = 0 ∧
    (optimize [] cfg).2.processing_time = 0 := by
  refine ⟨rfl, rfl, rfl, rfl, rfl, rfl, rfl, rfl, rfl, rfl, rfl, rfl, rfl, rfl, rfl⟩

/-! ## Concrete scenarios -/

/-- The default configuration
(`chars_per_sec = 20`, `min_duration = 1`, `max_duration = 8`,
`min_gap = 0.05`, `short_threshold = 0.8`, `long_threshold = 3`,
`max_anticipation = 0.5`). -/
def cfgD : OptimizationConfig := {}

/-- Scenario S4, first cue: `[10.0, 11.0] "A"`. -/
def s4A : Subtitle := { index := 0, start_time := 10, end_time := 11, text := "A" }

/-- Scenario S4, second cue: `[12.0, 12.4] "B"`. -/
def s4B : Subtitle := { index := 1, start_time := 12, end_time := 62/5, text := "B" }

/-- An 80-character text (reading-speed target 4 s at 20 cps). -/
def text80 : String :=
  "aaaaaaaaaaaaaaaaaaaaaaaaaaaaaaaaaaaaaaaaaaaaaaaaaaaaaaaaaaaaaaaaaaaaaaaaaaaaaaaa"

/-- A 100-character text (reading-speed target 5 s at 20 cps). -/
def text100 : String :=
  "aaaaaaaaaaaaaaaaaaaaaaaaaaaaaaaaaaaaaaaaaaaaaaaaaaaaaaaaaaaaaaaaaaaaaaaaaaaaaaaaaaaaaaaaaaaaaaaaaa"

/-- A 20-character text (reading-speed target 1 s at 20 cps). -/
def text20 : String := "xxxxxxxxxxxxxxxxxxxx"

/-- Overlap scenario, first cue: `[0, 2]` with an 80-character text. -/
def ovA : Subtitle := { index := 0, start_time := 0, end_time := 2, text := text80 }

/-- Overlap scenario, second cue: `[1.5, 4]`, overlapping the first. -/
def ovB : Subtitle := { index := 1, start_time := 3/2, end_time := 4, text := "bb" }

/-- **C1.**  In the pipeline the duration pass runs with an empty
`allowed_overlaps` set (the engine never forwards the registry), so for the
registered overlap pair `(0, 1)` the first cue is bounded by
`next.start − min_gap − c.start = 1.45` and stays at `[0, 2]` — both after
phase 1 alone and in the final output — although its reading-speed target
is 4 s and the claimed bound `next.end − c.start = 4` would let
`adjust_duration` (with the overlap flag that the engine fails to pass)
extend it to `[0, 4]`. -/
theorem c1_pipeline_duration_ignores_overlap_registry :
    detect_original_overlaps [ovA, ovB] (0, 1) = true ∧
    (durationProcess [ovA, ovB] cfgD {} (fun _ => false)).1.map Subtitle.end_time = [2, 4] ∧
    (optimize [ovA, ovB] cfgD).1.map Subtitle.end_time = [2, 4] ∧
    (adjust_duration ovA (some ovB) cfgD true).end_time = 4 ∧
    ovB.end_time - ovA.start_time = 4 ∧
    (ovB.start_time - cfgD.min_gap) - ovA.start_time = 29/20 := by
  decide

/-- **C5 (counterexample).**  On scenario S4 the pipeline outputs the second
cue as `[12, 13]`, not the claimed `[11.5, 13]`: after the duration pass the
cue already meets `min_duration`, so `is_beneficial` rejects the
anticipation. -/
theorem c5_s4_counterexample :
    ((optimize [s4A, s4B] cfgD).1.map fun s => (s.start_time, s.end_time)) =
      [(10, 11), (12, 13)] ∧ (12 : ℚ) ≠ 23/2 := by
  decide

/-- **C5 (amended).**  On scenario S4 the full pipeline outputs
`[10, 11] "A"` and `[12, 13] "B"`: the second cue is extended to
`min_duration` by the duration pass and is not anticipated, because
`is_beneficial` rejects a shift for a cue whose duration already reaches
both its reading-speed ideal and `min_duration`. -/
theorem c5_s4_amended :
    (optimize [s4A, s4B] cfgD).1 =
      [{ index := 0, start_time := 10, end_time := 11, text := "A" },
       { index := 1, start_time := 12, end_time := 13, text := "B" }] := by
  decide

/-- Unsorted input, first cue: `[10, 11] "A"`. -/
def unsA : Subtitle := { index := 0, start_time := 10, end_time := 11, text := "A" }

/-- Unsorted input, second cue: `[0, 1] "B"` (starts before the first). -/
def unsB : Subtitle := { index := 1, start_time := 0, end_time := 1, text := "B" }

/-- **C2 (counterexample).**  On the unsorted input `[10,11] "A"`,
`[0,1] "B"` the full pipeline outputs start times `[10, 0]`: the validator's
chronology check fails for the second cue and the original (out-of-order)
cue is emitted unchanged, so the output is not ordered by start time. -/
theorem c2_counterexample :
    ((optimize [unsA, unsB] cfgD).1.map Subtitle.start_time) = [10, 0] ∧
    ¬ ((10 : ℚ) ≤ 0) := by
  decide

/-- Conservation scenario cue `[0, 5]` with a 100-character text. -/
def conA : Subtitle := { index := 0, start_time := 0, end_time := 5, text := text100 }

/-- Conservation scenario cue `[0.5, 0.4]` with empty text (structurally
invalid: it is removed by the validator). -/
def conX : Subtitle := { index := 1, start_time := 1/2, end_time := 2/5, text := "" }

/-- Conservation scenario cue `[1, 2] "bb"`. -/
def conB : Subtitle := { index := 2, start_time := 1, end_time := 2, text := "bb" }

/-- **C3 (counterexample).**  After the structurally invalid middle cue is
removed, the output pair corresponds to input positions `(0, 2)`, which is
not in the overlap registry; yet the validator leaves the pair overlapping
by 4 s (gap `= −4`), because a gap below `−0.5` is preserved as an
intentional overlap.  So the min-gap claim fails for any ε below 4.05. -/
theorem c3_counterexample :
    (optimize [conA, conX, conB] cfgD).1 = [conA, conB] ∧
    detect_original_overlaps [conA, conX, conB] (conA.index, conB.index) = false ∧
    conB.start_time - conA.end_time = -4 ∧
    ((-4 : ℚ) < cfgD.min_gap - 1/2) := by
  decide

/-- Gap-repair scenario, first cue: `[10, 11]` with a 20-character text. -/
def gapA : Subtitle := { index := 0, start_time := 10, end_time := 11, text := text20 }

/-- Gap-repair scenario, second cue: `[11.02, 12.02]`, 0.02 s after the
first. -/
def gapB : Subtitle := { index := 1, start_time := 551/50, end_time := 601/50, text := text20 }

/-- **C6 (counterexample).**  The validator's gap repair moves the second
cue's start **later** (from 11.02 to 11.05), so
`input_start − out_start = −0.03 < 0` and the claimed interval
`[0, max_anticipation + ε]` does not contain it. -/
theorem c6_counterexample :
    ((optimize [gapA, gapB] cfgD).1.map Subtitle.start_time) = [10, 221/20] ∧
    gapB.start_time - 221/20 < 0 := by
  decide

/-! ## C7: characterization of `rebalance_pair` -/

/-- Modelled from the claim's wording (C7 / spec §4.2): a pair is a
rebalance candidate iff the current cue is shorter than `short_threshold`
and the next is longer than `long_threshold`; a transfer
`t = min(deficit, surplus) > 0` sets `new_current.end = current.end + t` and
`new_next.start = new_current.end + min_gap`, and is rejected — both cues
kept unchanged — when the new next start would reach or pass `next.end`,
the new next duration would fall below `min_duration` or below the original
current duration, the resulting gap would be below `min_gap`, or any
resulting times would be invalid. -/
def rebalance_pair_spec (c n : Subtitle) (cfg : OptimizationConfig) :
    Subtitle × Subtitle × ℚ :=
  if c.duration < cfg.short_threshold ∧ cfg.long_threshold < n.duration then
    let t := min (cfg.short_threshold - c.duration) (n.duration - cfg.long_threshold)
    if 0 < t then
      let nc := c.with_end_time (c.end_time + t)
      let nn := n.with_start_time (nc.end_time + cfg.min_gap)
      if n.end_time ≤ nn.start_time ∨ nn.duration < cfg.min_duration ∨
          nn.duration < c.duration ∨ nn.start_time - nc.end_time < cfg.min_gap ∨
          nc.end_time ≤ nc.start_time ∨ nn.end_time ≤ nn.start_time then
        (c, n, 0)
      else (nc, nn, t)
    else (c, n, 0)
  else (c, n, 0)

/-- **C7.**  The rebalance step of the code coincides, on every pair and
every configuration, with the claim's description: modification happens only
for a short-before-long candidate pair, a successful transfer moves the
shared boundary exactly as claimed, and the transfer is rejected exactly
under the claimed conditions. -/
theorem c7_rebalance_pair_matches_claim (c n : Subtitle) (cfg : OptimizationConfig) :
    rebalance_pair c n cfg = rebalance_pair_spec c n cfg := by
  by_cases hA : c.duration < cfg.short_threshold ∧ cfg.long_threshold < n.duration
  · have hs : should_rebalance c n cfg = true := by
      simp only [should_rebalance, Bool.and_eq_true, decide_eq_true_eq]
      exact hA
    set t := min (cfg.short_threshold - c.duration) (n.duration - cfg.long_threshold) with hT
    by_cases ht : t ≤ 0
    · unfold rebalance_pair rebalance_pair_spec
      rw [hs]
      simp only [eq_self_iff_true, if_true]
      rw [if_pos hA, ← hT, if_pos ht, if_neg (not_lt.mpr ht)]
    · have hpos : 0 < t := lt_of_not_le ht
      unfold rebalance_pair rebalance_pair_spec
      rw [hs]
      simp only [eq_self_iff_true, if_true]
      rw [if_pos hA, ← hT, if_neg ht, if_pos hpos]
      simp only [validate_rebalancing, Bool.and_eq_true, decide_eq_true_eq,
        with_end_time_end, with_end_time_start, with_start_time_start,
        with_start_time_end, with_start_time_duration, with_end_time_duration,
        Subtitle.duration]
      split_ifs with h1 h2 h3 h4 h5
      · rfl
      · exfalso
        push_neg at h2
        obtain ⟨g1, g2, g3, g4, g5, g6⟩ := h2
        linarith
      · exfalso
        obtain ⟨⟨⟨⟨⟨v1, v2⟩, v3⟩, v4⟩, v5⟩, v6⟩ := h3
        rcases h4 with g | g | g | g | g | g <;> linarith
      · rfl
      · rfl
      · exfalso
        push_neg at h5
        obtain ⟨g1, g2, g3, g4, g5, g6⟩ := h5
        exact h3 ⟨⟨⟨⟨⟨by linarith, by linarith⟩, by linarith⟩, by linarith⟩,
          by linarith⟩, by linarith⟩
  · have hs : should_rebalance c n cfg = false := by
      rw [should_rebalance]
      by_cases h1 : c.duration < cfg.short_threshold
      · have h2 : ¬ cfg.long_threshold < n.duration := fun h2 => hA ⟨h1, h2⟩
        simp [h1, h2]
      · simp [h1]
    unfold rebalance_pair rebalance_pair_spec
    rw [hs, if_neg hA]
    simp

/-! ## Preservation lemmas for rebalancing and anticipation -/

theorem rebalance_pair_text_index (c n : Subtitle) (cfg : OptimizationConfig) :
    (rebalance_pair c n cfg).1.text = c.text ∧
    (rebalance_pair c n cfg).2.1.text = n.text ∧
    (rebalance_pair c n cfg).1.index = c.index ∧
    (rebalance_pair c n cfg).2.1.index = n.index := by
  simp only [rebalance_pair]
  split_ifs <;> simp

theorem rebalanceLoop_maps (cfg : OptimizationConfig) :
    ∀ (rest : List Subtitle) (x : Subtitle) (st : OptimizationStatistics),
      (rebalanceLoop cfg x rest st).1.map Subtitle.text = (x :: rest).map Subtitle.text ∧
      (rebalanceLoop cfg x rest st).1.map Subtitle.index = (x :: rest).map Subtitle.index
  | [], x, st => by simp [rebalanceLoop]
  | y :: rest, x, st => by
    have ihy := rebalanceLoop_maps cfg rest y
    have ihr := rebalanceLoop_maps cfg rest (rebalance_pair x y cfg).2.1
    obtain ⟨htc, htn, hic, hin⟩ := rebalance_pair_text_index x y cfg
    simp only [rebalanceLoop]
    split_ifs with h
    · constructor
      · simp only [List.map_cons, (ihr _).1, htc, htn]
      · simp only [List.map_cons, (ihr _).2, hic, hin]
    · constructor
      · simp only [List.map_cons, (ihy _).1]
      · simp only [List.map_cons, (ihy _).2]

theorem rebalancerProcess_maps (subs : List Subtitle) (cfg : OptimizationConfig)
    (st : OptimizationStatistics) :
    (rebalancerProcess subs cfg st).1.map Subtitle.text = subs.map Subtitle.text ∧
    (rebalancerProcess subs cfg st).1.map Subtitle.index = subs.map Subtitle.index := by
  unfold rebalancerProcess
  split_ifs with h
  · exact ⟨rfl, rfl⟩
  · match subs with
    | [] => exact ⟨rfl, rfl⟩
    | x :: rest => exact rebalanceLoop_maps cfg rest x st

theorem is_beneficial_pos {s : Subtitle} {a : ℚ} {cfg : OptimizationConfig}
    (h : is_beneficial s a cfg = true) : 0 < a := by
  unfold is_beneficial at h
  split_ifs at h with h1 h2
  all_goals first | cases h | exact lt_of_not_le h1

theorem apply_anticipation_cases (c : Subtitle) (p? : Option Subtitle)
    (cfg : OptimizationConfig) :
    (apply_anticipation c p? cfg).1.text = c.text ∧
    (apply_anticipation c p? cfg).1.index = c.index ∧
    (apply_anticipation c p? cfg).1.end_time = c.end_time ∧
    0 ≤ c.start_time - (apply_anticipation c p? cfg).1.start_time ∧
    (0 ≤ cfg.max_anticipation →
      c.start_time - (apply_anticipation c p? cfg).1.start_time ≤ cfg.max_anticipation) := by
  simp only [apply_anticipation]
  split_ifs with h1 h2 h3
  · simp
  · have hb : 0 < min (calculate_max_anticipation c p? cfg) cfg.max_anticipation :=
      is_beneficial_pos h2
    have hle : min (calculate_max_anticipation c p? cfg) cfg.max_anticipation ≤
        cfg.max_anticipation := min_le_right _ _
    refine ⟨rfl, rfl, rfl, ?_, fun _ => ?_⟩ <;>
      simp only [with_start_time_start] <;> linarith
  · simp
  · simp

theorem anticipatorLoop_frame (cfg : OptimizationConfig) :
    ∀ (subs : List Subtitle) (p? : Option Subtitle) (st : OptimizationStatistics),
      (anticipatorLoop cfg p? subs st).1.map Subtitle.text = subs.map Subtitle.text ∧
      (anticipatorLoop cfg p? subs st).1.map Subtitle.index = subs.map Subtitle.index ∧
      (0 ≤ cfg.max_anticipation →
        List.Forall₂
          (fun inp out => 0 ≤ inp.start_time - out.start_time ∧
            inp.start_time - out.start_time ≤ cfg.max_anticipation)
          subs (anticipatorLoop cfg p? subs st).1)
  | [], p?, st => by simp [anticipatorLoop]
  | s :: rest, p?, st => by
    have ih := anticipatorLoop_frame cfg rest (some (apply_anticipation s p? cfg).1)
    obtain ⟨htext, hindex, hend, hlo, hhi⟩ := apply_anticipation_cases s p? cfg
    simp only [anticipatorLoop]
    refine ⟨?_, ?_, fun hma => ?_⟩
    · simp only [List.map_cons, htext, (ih _).1]
    · simp only [List.map_cons, hindex, (ih _).2.1]
    · exact List.Forall₂.cons ⟨hlo, hhi hma⟩ ((ih _).2.2 hma)

/-- **C6 (amended).**  The anticipation pass itself moves each start time
only earlier, and by at most the configured maximum: for every cue,
`input_start − out_start ∈ [0, max_anticipation]`.  (At full-pipeline level
the claim fails, since rebalancing and gap repair also move start times —
see the counterexample.) -/
theorem c6_anticipation_pass_bounds (subs : List Subtitle)
    (cfg : OptimizationConfig) (st : OptimizationStatistics)
    (hma : 0 ≤ cfg.max_anticipation) :
    List.Forall₂
      (fun inp out => 0 ≤ inp.start_time - out.start_time ∧
        inp.start_time - out.start_time ≤ cfg.max_anticipation)
      subs (anticipatorProcess subs cfg st).1 := by
  unfold anticipatorProcess
  split_ifs with h
  · rcases List.isEmpty_iff.mp h with rfl
    simp
  · exact (anticipatorLoop_frame cfg subs none st).2.2 hma

/-- Witness for the amended C6 theorem at a concrete input: the second
gap-scenario cue, processed alone. -/
theorem c6_anticipation_pass_bounds_witness :
    0 ≤ cfgD.max_anticipation ∧
    List.Forall₂
      (fun inp out => 0 ≤ inp.start_time - out.start_time ∧
        inp.start_time - out.start_time ≤ cfgD.max_anticipation)
      [gapB] (anticipatorProcess [gapB] cfgD {}).1 :=
  ⟨by decide, c6_anticipation_pass_bounds [gapB] cfgD {} (by decide)⟩

/-! ## Frame lemmas for the validation pass -/

theorem fix_minimum_duration_text (s : Subtitle) (cfg : OptimizationConfig)
    (st : OptimizationStatistics) :
    (fix_minimum_duration s cfg st).1.text = s.text := by
  unfold fix_minimum_duration; split_ifs <;> simp

theorem fix_minimum_duration_index (s : Subtitle) (cfg : OptimizationConfig)
    (st : OptimizationStatistics) :
    (fix_minimum_duration s cfg st).1.index = s.index := by
  unfold fix_minimum_duration; split_ifs <;> simp

theorem fix_minimum_duration_start (s : Subtitle) (cfg : OptimizationConfig)
    (st : OptimizationStatistics) :
    (fix_minimum_duration s cfg st).1.start_time = s.start_time := by
  unfold fix_minimum_duration; split_ifs <;> simp

theorem fix_minimum_duration_duration_ge (s : Subtitle) (cfg : OptimizationConfig)
    (st : OptimizationStatistics) :
    cfg.min_duration ≤ (fix_minimum_duration s cfg st).1.duration := by
  unfold fix_minimum_duration
  split_ifs with h
  · exact h
  · simp

theorem fix_minimum_gap_text (c : Subtitle) (p? : Option Subtitle)
    (cfg : OptimizationConfig) (st : OptimizationStatistics) :
    (fix_minimum_gap c p? cfg st).1.text = c.text := by
  cases p? with
  | none => rfl
  | some p =>
    simp only [fix_minimum_gap]
    split_ifs <;> simp

theorem fix_minimum_gap_index (c : Subtitle) (p? : Option Subtitle)
    (cfg : OptimizationConfig) (st : OptimizationStatistics) :
    (fix_minimum_gap c p? cfg st).1.index = c.index := by
  cases p? with
  | none => rfl
  | some p =>
    simp only [fix_minimum_gap]
    split_ifs <;> simp

theorem fix_minimum_gap_duration (c : Subtitle) (p? : Option Subtitle)
    (cfg : OptimizationConfig) (st : OptimizationStatistics) :
    (fix_minimum_gap c p? cfg st).1.duration = c.duration := by
  cases p? with
  | none => rfl
  | some p =>
    simp only [fix_minimum_gap]
    split_ifs <;> simp [Subtitle.duration]

theorem apply_all_fixes_text (current : Subtitle) (p? : Option Subtitle)
    (cfg : OptimizationConfig) (st : OptimizationStatistics) (flag : Bool) :
    (apply_all_fixes current p? cfg st flag).1.text = current.text := by
  simp only [apply_all_fixes]
  split_ifs <;>
    simp [fix_minimum_gap_text, fix_minimum_duration_text]

theorem apply_all_fixes_index (current : Subtitle) (p? : Option Subtitle)
    (cfg : OptimizationConfig) (st : OptimizationStatistics) (flag : Bool) :
    (apply_all_fixes current p? cfg st flag).1.index = current.index := by
  simp only [apply_all_fixes]
  split_ifs <;>
    simp [fix_minimum_gap_index, fix_minimum_duration_index]

theorem validateLoop_text_sublist (cfg : OptimizationConfig) (allowed : ℕ × ℕ → Bool) :
    ∀ (rem : List Subtitle) (i : ℕ) (validated : List Subtitle)
      (st : OptimizationStatistics),
      ((validateLoop cfg allowed i validated rem st).1.map Subtitle.text).Sublist
        (validated.map Subtitle.text ++ rem.map Subtitle.text)
  | [], i, validated, st => by simp [validateLoop]
  | current :: rest, i, validated, st => by
    simp only [validateLoop]
    split_ifs with hv
    · have ih := validateLoop_text_sublist cfg allowed rest (i + 1)
        (validated ++
          [(apply_all_fixes current validated.getLast? cfg st
            (overlap_lookup allowed validated.length i)).1])
        (apply_all_fixes current validated.getLast? cfg st
          (overlap_lookup allowed validated.length i)).2
      simpa [apply_all_fixes_text, List.append_assoc] using ih
    · have ih := validateLoop_text_sublist cfg allowed rest (i + 1) validated
        { (apply_all_fixes current validated.getLast? cfg st
            (overlap_lookup allowed validated.length i)).2 with
          invalid_removed :=
            (apply_all_fixes current validated.getLast? cfg st
              (overlap_lookup allowed validated.length i)).2.invalid_removed + 1 }
      refine ih.trans ?_
      refine List.Sublist.append_left ?_ _
      exact List.sublist_cons_self _ _

theorem durationProcess_maps (subs : List Subtitle) (cfg : OptimizationConfig)
    (st : OptimizationStatistics) (allowed : ℕ × ℕ → Bool) :
    (durationProcess subs cfg st allowed).1.map Subtitle.index = subs.map Subtitle.index ∧
    (durationProcess subs cfg st allowed).1.map Subtitle.start_time = subs.map Subtitle.start_time ∧
    (durationProcess subs cfg st allowed).1.map Subtitle.text = subs.map Subtitle.text := by
  unfold durationProcess
  split_ifs with h
  · exact ⟨rfl, rfl, rfl⟩
  · have hf := durationLoop_frame cfg allowed subs 0 st
    exact ⟨hf.1, hf.2.1, hf.2.2.1⟩

theorem anticipatorProcess_maps (subs : List Subtitle) (cfg : OptimizationConfig)
    (st : OptimizationStatistics) :
    (anticipatorProcess subs cfg st).1.map Subtitle.text = subs.map Subtitle.text ∧
    (anticipatorProcess subs cfg st).1.map Subtitle.index = subs.map Subtitle.index := by
  unfold anticipatorProcess
  split_ifs with h
  · exact ⟨rfl, rfl⟩
  · have hf := anticipatorLoop_frame cfg subs none st
    exact ⟨hf.1, hf.2.1⟩

/-- The text lists are untouched by the first three passes of the
pipeline. -/
theorem pipeline_first_three_text (subs : List Subtitle) (cfg : OptimizationConfig)
    (st : OptimizationStatistics) :
    (anticipatorProcess
      (rebalancerProcess (durationProcess subs cfg st (fun _ => false)).1 cfg
        (durationProcess subs cfg st (fun _ => false)).2).1 cfg
      (rebalancerProcess (durationProcess subs cfg st (fun _ => false)).1 cfg
        (durationProcess subs cfg st (fun _ => false)).2).2).1.map Subtitle.text =
    subs.map Subtitle.text := by
  rw [(anticipatorProcess_maps _ _ _).1, (rebalancerProcess_maps _ _ _).1,
    (durationProcess_maps _ _ _ _).2.2]

/-- **C4.**  Conservation of content: the texts of the full pipeline output
form a subsequence of the texts of the input — no text string is altered,
no cue is duplicated, and the surviving cues keep the input order. -/
theorem c4_texts_subsequence (subs : List Subtitle) (cfg : OptimizationConfig) :
    ((optimize subs cfg).1.map Subtitle.text).Sublist (subs.map Subtitle.text) := by
  simp only [optimize]
  split_ifs with h
  · simp
  · have htext := pipeline_first_three_text subs cfg
      { original_subtitle_count := subs.length }
    simp only [apply_optimization_pipeline, validatorProcess]
    split_ifs with hempty
    · exact htext ▸ List.Sublist.refl _
    · have h4 := validateLoop_text_sublist cfg (detect_original_overlaps subs)
        (anticipatorProcess
          (rebalancerProcess
            (durationProcess subs cfg { original_subtitle_count := subs.length }
              (fun _ => false)).1 cfg
            (durationProcess subs cfg { original_subtitle_count := subs.length }
              (fun _ => false)).2).1 cfg
          (rebalancerProcess
            (durationProcess subs cfg { original_subtitle_count := subs.length }
              (fun _ => false)).1 cfg
            (durationProcess subs cfg { original_subtitle_count := subs.length }
              (fun _ => false)).2).2).1 0 []
        (anticipatorProcess
          (rebalancerProcess
            (durationProcess subs cfg { original_subtitle_count := subs.length }
              (fun _ => false)).1 cfg
            (durationProcess subs cfg { original_subtitle_count := subs.length }
              (fun _ => false)).2).1 cfg
          (rebalancerProcess
            (durationProcess subs cfg { original_subtitle_count := subs.length }
              (fun _ => false)).1 cfg
            (durationProcess subs cfg { original_subtitle_count := subs.length }
              (fun _ => false)).2).2).2
      simp only [List.map_nil, List.nil_append] at h4
      rw [htext] at h4
      exact h4

/-! ## Case analysis of the validator's per-cue fixes -/

theorem fix_minimum_duration_chronology (s : Subtitle) (cfg : OptimizationConfig)
    (st : OptimizationStatistics) :
    (fix_minimum_duration s cfg st).2.chronology_fixes = st.chronology_fixes := by
  unfold fix_minimum_duration; split_ifs <;> rfl

theorem fix_minimum_gap_chronology (c : Subtitle) (p? : Option Subtitle)
    (cfg : OptimizationConfig) (st : OptimizationStatistics) :
    (fix_minimum_gap c p? cfg st).2.chronology_fixes = st.chronology_fixes := by
  cases p? with
  | none => rfl
  | some p =>
    simp only [fix_minimum_gap]
    split_ifs <;> rfl

/-- The three outcomes of `fix_minimum_gap` against an existing previous
cue: kept because the gap is already sufficient or the overlap is
significant, or shifted to start exactly `min_gap` after the previous
end. -/
theorem fix_minimum_gap_spec (c p : Subtitle) (cfg : OptimizationConfig)
    (st : OptimizationStatistics) :
    ((fix_minimum_gap c (some p) cfg st).1 = c ∧
      (cfg.min_gap ≤ c.start_time - p.end_time ∨ c.start_time - p.end_time < -(1/2))) ∨
    ((fix_minimum_gap c (some p) cfg st).1.start_time = p.end_time + cfg.min_gap ∧
      (fix_minimum_gap c (some p) cfg st).1.end_time =
        p.end_time + cfg.min_gap + c.duration) := by
  simp only [fix_minimum_gap]
  split_ifs with h1 h2
  · exact Or.inl ⟨rfl, Or.inl h1⟩
  · exact Or.inl ⟨rfl, Or.inr h2⟩
  · exact Or.inr ⟨by simp, by simp⟩

theorem is_chronologically_valid_some_iff {x p : Subtitle} :
    is_chronologically_valid x (some p) = true ↔ p.start_time ≤ x.start_time := by
  simp [is_chronologically_valid]

theorem has_valid_time_range_iff {s : Subtitle} :
    has_valid_time_range s = true ↔
      0 ≤ s.start_time ∧ s.start_time < s.end_time ∧ 0 < s.duration := by
  simp [has_valid_time_range, and_assoc]

/-- Full case analysis of `apply_all_fixes` against an existing, valid
previous cue: the returned cue always satisfies the min-gap disjunction
(when the overlap exemption is off), and either the chronology counter is
bumped, or the returned cue starts no earlier than the previous one. -/
theorem apply_all_fixes_spec (cfg : OptimizationConfig) (hv : cfg.Valid)
    (current p : Subtitle) (st : OptimizationStatistics) (flag : Bool)
    (hp : p.validate = true) :
    (flag = false →
      (cfg.min_gap ≤ (apply_all_fixes current (some p) cfg st flag).1.start_time - p.end_time ∨
        (apply_all_fixes current (some p) cfg st flag).1.start_time - p.end_time < -(1/2))) ∧
    ((apply_all_fixes current (some p) cfg st flag).2.chronology_fixes = st.chronology_fixes + 1 ∨
      ((apply_all_fixes current (some p) cfg st flag).2.chronology_fixes = st.chronology_fixes ∧
        p.start_time ≤ (apply_all_fixes current (some p) cfg st flag).1.start_time)) := by
  have hps := validate_start_nonneg hp
  have hpe := validate_start_lt_end hp
  have hg := config_min_gap_pos hv
  have hd := config_min_duration_pos hv
  have hf1start := fix_minimum_duration_start current cfg st
  have hf1dur := fix_minimum_duration_duration_ge current cfg st
  have hf1chron := fix_minimum_duration_chronology current cfg st
  simp only [apply_all_fixes]
  cases flag with
  | true =>
    -- the gap fix is skipped: the candidate is the min-duration-fixed cue
    simp only [eq_self_iff_true, if_true]
    split_ifs with hc hr
    · refine ⟨(fun hff => nomatch hff), Or.inr ⟨?_, ?_⟩⟩
      · simp [hf1chron]
      · rw [is_chronologically_valid_some_iff] at hc
        exact hc
    · refine ⟨(fun hff => nomatch hff), Or.inr ⟨?_, ?_⟩⟩
      · simp [hf1chron]
      · rw [is_chronologically_valid_some_iff] at hc
        rw [← hf1start]
        exact hc
    · refine ⟨(fun hff => nomatch hff), Or.inl ?_⟩
      simp [hf1chron]
  | false =>
    have hgapchron := fix_minimum_gap_chronology
      (fix_minimum_duration current cfg st).1 (some p) cfg
      (fix_minimum_duration current cfg st).2
    have hgaptext := fix_minimum_gap_duration
      (fix_minimum_duration current cfg st).1 (some p) cfg
      (fix_minimum_duration current cfg st).2
    simp only [Bool.false_eq_true, if_false]
    rcases fix_minimum_gap_spec (fix_minimum_duration current cfg st).1 p cfg
        (fix_minimum_duration current cfg st).2 with
      ⟨heq, hdisj⟩ | ⟨hstart, hend⟩
    · -- gap fix did not modify the cue
      rw [hf1start] at hdisj
      split_ifs with hc hr
      · rw [heq] at hc ⊢
        rw [is_chronologically_valid_some_iff] at hc
        refine ⟨fun _ => ?_, Or.inr ⟨?_, ?_⟩⟩
        · rw [hf1start]
          exact hdisj
        · simp [hgapchron, hf1chron]
        · rw [hf1start] at hc ⊢
          exact hc
      · rw [heq] at hc
        rw [is_chronologically_valid_some_iff] at hc
        refine ⟨fun _ => hdisj, Or.inr ⟨?_, ?_⟩⟩
        · simp [hgapchron, hf1chron]
        · rw [hf1start] at hc
          exact hc
      · refine ⟨fun _ => hdisj, Or.inl ?_⟩
        simp [hgapchron, hf1chron]
    · -- gap fix shifted the cue forward to min_gap after the previous end
      have hchrono : is_chronologically_valid
          (fix_minimum_gap (fix_minimum_duration current cfg st).1 (some p) cfg
            (fix_minimum_duration current cfg st).2).1 (some p) = true := by
        rw [is_chronologically_valid_some_iff, hstart]
        linarith
      have hrange : has_valid_time_range
          (fix_minimum_gap (fix_minimum_duration current cfg st).1 (some p) cfg
            (fix_minimum_duration current cfg st).2).1 = true := by
        rw [has_valid_time_range_iff, hstart]
        have hdur : (fix_minimum_gap (fix_minimum_duration current cfg st).1 (some p) cfg
            (fix_minimum_duration current cfg st).2).1.duration =
            (fix_minimum_duration current cfg st).1.duration := hgaptext
        refine ⟨by linarith, ?_, ?_⟩
        · have := hdur
          simp only [Subtitle.duration] at this
          rw [hstart] at this
          linarith
        · rw [hdur]
          linarith
      split_ifs
      refine ⟨fun _ => Or.inl ?_, Or.inr ⟨?_, ?_⟩⟩
      · rw [hstart]
        linarith
      · simp [hgapchron, hf1chron]
      · rw [hstart]
        linarith

/-- With no previous cue, `apply_all_fixes` never counts a chronology
fix. -/
theorem apply_all_fixes_none_chronology (current : Subtitle)
    (cfg : OptimizationConfig) (st : OptimizationStatistics) (flag : Bool) :
    (apply_all_fixes current none cfg st flag).2.chronology_fixes = st.chronology_fixes := by
  have hf1chron := fix_minimum_duration_chronology current cfg st
  have hgapchron := fix_minimum_gap_chronology
    (fix_minimum_duration current cfg st).1 none cfg
    (fix_minimum_duration current cfg st).2
  simp only [apply_all_fixes]
  cases flag with
  | true =>
    simp only [eq_self_iff_true, if_true]
    split_ifs with hc hr
    · simp [hf1chron]
    · simp [hf1chron]
    · simp [is_chronologically_valid] at hc
  | false =>
    simp only [Bool.false_eq_true, if_false]
    split_ifs with hc hr
    · simp [hgapchron, hf1chron]
    · simp [hgapchron, hf1chron]
    · simp [is_chronologically_valid] at hc

theorem apply_all_fixes_chronology_le (current : Subtitle) (p? : Option Subtitle)
    (cfg : OptimizationConfig) (st : OptimizationStatistics) (flag : Bool) :
    st.chronology_fixes ≤ (apply_all_fixes current p? cfg st flag).2.chronology_fixes := by
  have hf1chron := fix_minimum_duration_chronology current cfg st
  have hgapchron := fix_minimum_gap_chronology
    (fix_minimum_duration current cfg st).1 p? cfg
    (fix_minimum_duration current cfg st).2
  simp only [apply_all_fixes]
  split_ifs <;> simp [hgapchron, hf1chron]

/-! ## Chronology-counter bookkeeping across the passes -/

theorem add_duration_change_chronology (st : OptimizationStatistics) (x : ℚ) :
    (st.add_duration_change x).chronology_fixes = st.chronology_fixes := by
  unfold OptimizationStatistics.add_duration_change; split_ifs <;> rfl

theorem add_rebalancing_transfer_chronology (st : OptimizationStatistics) (x : ℚ) :
    (st.add_rebalancing_transfer x).chronology_fixes = st.chronology_fixes := by
  unfold OptimizationStatistics.add_rebalancing_transfer; split_ifs <;> rfl

theorem add_anticipation_chronology (st : OptimizationStatistics) (x : ℚ) :
    (st.add_anticipation x).chronology_fixes = st.chronology_fixes := by
  unfold OptimizationStatistics.add_anticipation; split_ifs <;> rfl

theorem durationLoop_chronology (cfg : OptimizationConfig) (allowed : ℕ × ℕ → Bool) :
    ∀ (subs : List Subtitle) (i : ℕ) (st : OptimizationStatistics),
      (durationLoop cfg allowed i subs st).2.chronology_fixes = st.chronology_fixes
  | [], _, _ => rfl
  | s :: rest, i, st => by
    simp only [durationLoop]
    rw [durationLoop_chronology cfg allowed rest (i + 1) _]
    split_ifs with h
    · exact add_duration_change_chronology st _
    · rfl

theorem durationProcess_chronology (subs : List Subtitle) (cfg : OptimizationConfig)
    (st : OptimizationStatistics) (allowed : ℕ × ℕ → Bool) :
    (durationProcess subs cfg st allowed).2.chronology_fixes = st.chronology_fixes := by
  unfold durationProcess
  split_ifs with h
  · rfl
  · exact durationLoop_chronology cfg allowed subs 0 st

theorem rebalanceLoop_chronology (cfg : OptimizationConfig) :
    ∀ (rest : List Subtitle) (x : Subtitle) (st : OptimizationStatistics),
      (rebalanceLoop cfg x rest st).2.chronology_fixes = st.chronology_fixes
  | [], _, _ => rfl
  | y :: rest, x, st => by
    simp only [rebalanceLoop]
    split_ifs with h
    · rw [rebalanceLoop_chronology cfg rest _ _]
      exact add_rebalancing_transfer_chronology st _
    · exact rebalanceLoop_chronology cfg rest y st

theorem rebalancerProcess_chronology (subs : List Subtitle) (cfg : OptimizationConfig)
    (st : OptimizationStatistics) :
    (rebalancerProcess subs cfg st).2.chronology_fixes = st.chronology_fixes := by
  unfold rebalancerProcess
  split_ifs with h
  · rfl
  · match subs with
    | [] => rfl
    | x :: rest => exact rebalanceLoop_chronology cfg rest x st

theorem anticipatorLoop_chronology (cfg : OptimizationConfig) :
    ∀ (subs : List Subtitle) (p? : Option Subtitle) (st : OptimizationStatistics),
      (anticipatorLoop cfg p? subs st).2.chronology_fixes = st.chronology_fixes
  | [], _, _ => rfl
  | s :: rest, p?, st => by
    simp only [anticipatorLoop]
    rw [anticipatorLoop_chronology cfg rest _ _]
    split_ifs with h
    · exact add_anticipation_chronology st _
    · rfl

theorem anticipatorProcess_chronology (subs : List Subtitle) (cfg : OptimizationConfig)
    (st : OptimizationStatistics) :
    (anticipatorProcess subs cfg st).2.chronology_fixes = st.chronology_fixes := by
  unfold anticipatorProcess
  split_ifs with h
  · rfl
  · exact anticipatorLoop_chronology cfg subs none st

theorem validateLoop_chronology_mono (cfg : OptimizationConfig) (allowed : ℕ × ℕ → Bool) :
    ∀ (rem : List Subtitle) (i : ℕ) (validated : List Subtitle)
      (st : OptimizationStatistics),
      st.chronology_fixes ≤ (validateLoop cfg allowed i validated rem st).2.chronology_fixes
  | [], _, _, _ => le_refl _
  | current :: rest, i, validated, st => by
    simp only [validateLoop]
    split_ifs with hval
    · exact le_trans
        (apply_all_fixes_chronology_le current validated.getLast? cfg st
          (overlap_lookup allowed validated.length i))
        (validateLoop_chronology_mono cfg allowed rest (i + 1) _ _)
    · exact le_trans
        (apply_all_fixes_chronology_le current validated.getLast? cfg st
          (overlap_lookup allowed validated.length i))
        (validateLoop_chronology_mono cfg allowed rest (i + 1) validated
          { (apply_all_fixes current validated.getLast? cfg st
              (overlap_lookup allowed validated.length i)).2 with
            invalid_removed :=
              (apply_all_fixes current validated.getLast? cfg st
                (overlap_lookup allowed validated.length i)).2.invalid_removed + 1 })

/-! ## Sortedness of the validator output when no chronology fix occurs -/

theorem validateLoop_sorted (cfg : OptimizationConfig) (hv : cfg.Valid)
    (allowed : ℕ × ℕ → Bool) :
    ∀ (rem : List Subtitle) (i : ℕ) (validated : List Subtitle)
      (st : OptimizationStatistics),
      (∀ c ∈ validated, c.validate = true) →
      List.Chain' (fun a b => a.start_time ≤ b.start_time) validated →
      (validateLoop cfg allowed i validated rem st).2.chronology_fixes = st.chronology_fixes →
      List.Chain' (fun a b => a.start_time ≤ b.start_time)
        (validateLoop cfg allowed i validated rem st).1
  | [], i, validated, st => fun _ hchain _ => hchain
  | current :: rest, i, validated, st => by
    intro hmem hchain hcount
    simp only [validateLoop] at hcount ⊢
    cases hL : validated.getLast? with
    | none =>
      rw [hL] at hcount
      have hnil : validated = [] := List.getLast?_eq_none_iff.mp hL
      subst hnil
      have hflag : overlap_lookup allowed (List.length ([] : List Subtitle)) i = false := rfl
      rw [hflag] at hcount ⊢
      have hchron0 := apply_all_fixes_none_chronology current cfg st false
      split_ifs at hcount ⊢ with hval
      · refine validateLoop_sorted cfg hv allowed rest (i + 1) _ _ ?_ ?_ ?_
        · intro c hc
          simp only [List.nil_append, List.mem_singleton] at hc
          subst hc
          exact hval
        · simp
        · rw [hcount, hchron0]
      · refine validateLoop_sorted cfg hv allowed rest (i + 1) _ _ hmem hchain ?_
        rw [hcount]
        simp [hchron0]
    | some p =>
      rw [hL] at hcount
      have hp : p.validate = true := hmem p (List.mem_of_mem_getLast? (hL ▸ rfl))
      have hspec := apply_all_fixes_spec cfg hv current p st
        (overlap_lookup allowed validated.length i) hp
      -- the chronology counter can not have been bumped
      have hle1 := apply_all_fixes_chronology_le current (some p) cfg st
        (overlap_lookup allowed validated.length i)
      split_ifs at hcount ⊢ with hval
      · have hle2 := validateLoop_chronology_mono cfg allowed rest (i + 1)
          (validated ++ [(apply_all_fixes current (some p) cfg st
            (overlap_lookup allowed validated.length i)).1])
          (apply_all_fixes current (some p) cfg st
            (overlap_lookup allowed validated.length i)).2
        have heq : (apply_all_fixes current (some p) cfg st
            (overlap_lookup allowed validated.length i)).2.chronology_fixes =
            st.chronology_fixes := by omega
        have hstart : p.start_time ≤ (apply_all_fixes current (some p) cfg st
            (overlap_lookup allowed validated.length i)).1.start_time := by
          rcases hspec.2 with h | h
          · omega
          · exact h.2
        refine validateLoop_sorted cfg hv allowed rest (i + 1) _ _ ?_ ?_ ?_
        · intro c hc
          rcases List.mem_append.mp hc with hc | hc
          · exact hmem c hc
          · rw [List.mem_singleton] at hc
            subst hc
            exact hval
        · rw [List.chain'_append]
          refine ⟨hchain, List.chain'_singleton _, ?_⟩
          intro x hx y hy
          simp only [List.head?_cons, Option.mem_def, Option.some.injEq] at hy
          subst hy
          rw [hL, Option.mem_def, Option.some.injEq] at hx
          subst hx
          exact hstart
        · omega
      · have hle2 := validateLoop_chronology_mono cfg allowed rest (i + 1) validated
          { (apply_all_fixes current (some p) cfg st
              (overlap_lookup allowed validated.length i)).2 with
            invalid_removed :=
              (apply_all_fixes current (some p) cfg st
                (overlap_lookup allowed validated.length i)).2.invalid_removed + 1 }
        refine validateLoop_sorted cfg hv allowed rest (i + 1) _ _ hmem hchain ?_
        simp only at hle2 hcount ⊢
        omega

/-- **C2 (amended).**  The full pipeline's output is ordered by start time
whenever the validation pass records no chronology fix; when a chronology
violation is detected the validator re-emits the original out-of-order cue,
and the output can stay unsorted (see the counterexample). -/
theorem c2_sorted_without_chronology_fixes (subs : List Subtitle)
    (cfg : OptimizationConfig) (hv : cfg.Valid)
    (hchron : (optimize subs cfg).2.chronology_fixes = 0) :
    List.Chain' (fun a b => a.start_time ≤ b.start_time) (optimize subs cfg).1 := by
  simp only [optimize] at hchron ⊢
  split_ifs at hchron ⊢ with h
  · simp
  · simp only [apply_optimization_pipeline, validatorProcess] at hchron ⊢
    split_ifs at hchron ⊢ with hempty
    · rw [List.isEmpty_iff.mp hempty]
      simp
    · have hst : (anticipatorProcess
          (rebalancerProcess
            (durationProcess subs cfg { original_subtitle_count := subs.length }
              (fun _ => false)).1 cfg
            (durationProcess subs cfg { original_subtitle_count := subs.length }
              (fun _ => false)).2).1 cfg
          (rebalancerProcess
            (durationProcess subs cfg { original_subtitle_count := subs.length }
              (fun _ => false)).1 cfg
            (durationProcess subs cfg { original_subtitle_count := subs.length }
              (fun _ => false)).2).2).2.chronology_fixes = 0 := by
        rw [anticipatorProcess_chronology, rebalancerProcess_chronology,
          durationProcess_chronology]
      refine validateLoop_sorted cfg hv (detect_original_overlaps subs) _ 0 [] _
        (by simp) (by simp) ?_
      rw [hst]
      exact hchron

/-! ## C10: the validator's overlap lookup after a removal -/

theorem detect_original_overlaps_form (subs : List Subtitle) (p : ℕ × ℕ)
    (h : detect_original_overlaps subs p = true) : p.2 = p.1 + 1 := by
  unfold detect_original_overlaps at h
  rw [Bool.and_eq_true] at h
  exact of_decide_eq_true h.1

/-- **C10.**  The overlap exemption for the cue at input position `i` is
looked up with the pair `(k − 1, i)` where `k` is the number of cues
emitted so far.  Every entry of the registry built by
`_detect_original_overlaps` has the form `(j, j + 1)`; hence once at least
one earlier cue has been removed (`k < i`), the lookup can never match and
the gap repair is applied even to pairs whose cues were adjacent — and
registered as overlapping — in the input. -/
theorem c10_overlap_lookup_misses_after_removal (subs : List Subtitle)
    (emitted i : ℕ) (h : emitted < i) :
    (∀ p : ℕ × ℕ, detect_original_overlaps subs p = true → p.2 = p.1 + 1) ∧
    overlap_lookup (detect_original_overlaps subs) emitted i = false := by
  refine ⟨detect_original_overlaps_form subs, ?_⟩
  unfold overlap_lookup
  split_ifs with h0
  · rfl
  · refine Bool.eq_false_iff.mpr fun hc => ?_
    have hform := detect_original_overlaps_form subs (emitted - 1, i) hc
    simp only at hform
    omega

/-- Witness for C10: on the conservation scenario, after the removal of the
invalid cue at position 1 only one cue has been emitted when position 2 is
processed, and the lookup `(0, 2)` misses the registry. -/
theorem c10_overlap_lookup_misses_after_removal_witness :
    1 < 2 ∧
    ((∀ p : ℕ × ℕ, detect_original_overlaps [conA, conX, conB] p = true →
        p.2 = p.1 + 1) ∧
      overlap_lookup (detect_original_overlaps [conA, conX, conB]) 1 2 = false) :=
  ⟨by decide,
    c10_overlap_lookup_misses_after_removal [conA, conX, conB] 1 2 (by decide)⟩

/-- The default configuration passes the range validation. -/
theorem cfgD_valid : cfgD.Valid := by decide

/-- Running the single-cue input `[s4A]` through the pipeline records no
chronology fix. -/
theorem optimize_single_chronology :
    (optimize [s4A] cfgD).2.chronology_fixes = 0 := by decide

/-! ## C3: the min-gap guarantee of the validator -/

/-- The per-pair guarantee of the validation pass: either the pair was
registered as an original overlap (looked up at the cues' input positions,
recorded in their `index` fields), or the gap is at least `min_gap`, or the
pair overlaps by more than half a second (preserved as intentional). -/
def gapOk (allowed : ℕ × ℕ → Bool) (cfg : OptimizationConfig)
    (a b : Subtitle) : Prop :=
  allowed (a.index, b.index) = true ∨
    cfg.min_gap ≤ b.start_time - a.end_time ∨
    b.start_time - a.end_time < -(1/2)

theorem validateLoop_gap (cfg : OptimizationConfig) (hv : cfg.Valid)
    (allowed : ℕ × ℕ → Bool)
    (hform : ∀ p : ℕ × ℕ, allowed p = true → p.2 = p.1 + 1) :
    ∀ (rem : List Subtitle) (i : ℕ) (validated : List Subtitle)
      (st : OptimizationStatistics),
      rem.map Subtitle.index = List.range' i rem.length →
      (∀ c ∈ validated, c.validate = true) →
      validated.length ≤ i →
      (∀ p ∈ validated.getLast?, validated.length - 1 ≤ p.index ∧ p.index < i) →
      List.Chain' (gapOk allowed cfg) validated →
      List.Chain' (gapOk allowed cfg) (validateLoop cfg allowed i validated rem st).1
  | [], i, validated, st => fun _ _ _ _ hchain => hchain
  | current :: rest, i, validated, st => by
    intro hrem hmem hlen hlast hchain
    simp only [List.map_cons, List.length_cons, List.range'_succ,
      List.cons.injEq] at hrem
    obtain ⟨hcuridx, hrest⟩ := hrem
    simp only [validateLoop]
    cases hL : validated.getLast? with
    | none =>
      have hnil : validated = [] := List.getLast?_eq_none_iff.mp hL
      subst hnil
      split_ifs with hval
      · refine validateLoop_gap cfg hv allowed hform rest (i + 1) _ _ hrest ?_ ?_ ?_ ?_
        · intro c hc
          simp only [List.nil_append, List.mem_singleton] at hc
          subst hc
          exact hval
        · simp
        · intro q hq
          rw [List.nil_append, List.getLast?_singleton, Option.mem_def,
            Option.some.injEq] at hq
          subst hq
          rw [apply_all_fixes_index, hcuridx]
          simp only [List.nil_append, List.length_singleton]
          omega
        · simp
      · exact validateLoop_gap cfg hv allowed hform rest (i + 1) [] _ hrest
          (by simp) (by omega) (by simp) (by simp)
    | some p =>
      have hp : p.validate = true := hmem p (List.mem_of_mem_getLast? (hL ▸ rfl))
      have hplast := hlast p (hL ▸ rfl)
      split_ifs with hval
      · have hpair : gapOk allowed cfg p
            (apply_all_fixes current (some p) cfg st
              (overlap_lookup allowed validated.length i)).1 := by
          cases hf : overlap_lookup allowed validated.length i with
          | true =>
            unfold overlap_lookup at hf
            split_ifs at hf with h0
            have hii := hform _ hf
            simp only at hii
            have hpidx : p.index = validated.length - 1 := by omega
            refine Or.inl ?_
            rw [apply_all_fixes_index, hcuridx, hpidx]
            exact hf
          | false =>
            exact Or.inr ((apply_all_fixes_spec cfg hv current p st false hp).1 rfl)
        refine validateLoop_gap cfg hv allowed hform rest (i + 1) _ _ hrest ?_ ?_ ?_ ?_
        · intro c hc
          rcases List.mem_append.mp hc with hc | hc
          · exact hmem c hc
          · rw [List.mem_singleton] at hc
            subst hc
            exact hval
        · rw [List.length_append, List.length_singleton]
          omega
        · intro q hq
          rw [List.getLast?_concat, Option.mem_def, Option.some.injEq] at hq
          subst hq
          rw [List.length_append, List.length_singleton, apply_all_fixes_index,
            hcuridx]
          omega
        · rw [List.chain'_append]
          refine ⟨hchain, List.chain'_singleton _, ?_⟩
          intro x hx y hy
          simp only [List.head?_cons, Option.mem_def, Option.some.injEq] at hy
          subst hy
          rw [hL, Option.mem_def, Option.some.injEq] at hx
          subst hx
          exact hpair
      · refine validateLoop_gap cfg hv allowed hform rest (i + 1) validated _ hrest
          hmem (by omega) ?_ hchain
        intro q hq
        have := hlast q hq
        omega

/-- The index maps are untouched by the first three passes of the
pipeline. -/
theorem pipeline_first_three_index (subs : List Subtitle) (cfg : OptimizationConfig)
    (st : OptimizationStatistics) :
    (anticipatorProcess
      (rebalancerProcess (durationProcess subs cfg st (fun _ => false)).1 cfg
        (durationProcess subs cfg st (fun _ => false)).2).1 cfg
      (rebalancerProcess (durationProcess subs cfg st (fun _ => false)).1 cfg
        (durationProcess subs cfg st (fun _ => false)).2).2).1.map Subtitle.index =
    subs.map Subtitle.index := by
  rw [(anticipatorProcess_maps _ _ _).2, (rebalancerProcess_maps _ _ _).2,
    (durationProcess_maps _ _ _ _).1]

/-- **C3 (amended).**  For an input whose `index` fields record the input
positions, every adjacent pair of the pipeline's output either was
registered in the overlap registry at its input positions, or respects the
minimum gap, or overlaps by more than 0.5 s (the validator preserves such
significant overlaps as intentional).  The original claim — a minimum gap
for every non-registered pair — fails on the counterexample because of the
third alternative. -/
theorem c3_min_gap_amended (subs : List Subtitle) (cfg : OptimizationConfig)
    (hv : cfg.Valid)
    (hidx : subs.map Subtitle.index = List.range subs.length) :
    List.Chain' (gapOk (detect_original_overlaps subs) cfg) (optimize subs cfg).1 := by
  simp only [optimize]
  split_ifs with h
  · simp
  · simp only [apply_optimization_pipeline, validatorProcess]
    split_ifs with hempty
    · rw [List.isEmpty_iff.mp hempty]
      simp
    · have hmaps := pipeline_first_three_index subs cfg
        { original_subtitle_count := subs.length }
      have hlenv : (anticipatorProcess
          (rebalancerProcess
            (durationProcess subs cfg { original_subtitle_count := subs.length }
              (fun _ => false)).1 cfg
            (durationProcess subs cfg { original_subtitle_count := subs.length }
              (fun _ => false)).2).1 cfg
          (rebalancerProcess
            (durationProcess subs cfg { original_subtitle_count := subs.length }
              (fun _ => false)).1 cfg
            (durationProcess subs cfg { original_subtitle_count := subs.length }
              (fun _ => false)).2).2).1.length = subs.length := by
        have := congrArg List.length hmaps
        simpa using this
      refine validateLoop_gap cfg hv (detect_original_overlaps subs)
        (detect_original_overlaps_form subs) _ 0 [] _ ?_ (by simp) (by simp)
        (by simp) (by simp)
      rw [hmaps, hidx, hlenv, List.range_eq_range']

end Subtuner

end RatKernelEval

namespace Subtuner

/-- Witness for the amended C2 theorem: a single-cue input runs through the
pipeline with no chronology fix, and the result is (trivially) sorted. -/
theorem c2_sorted_without_chronology_fixes_witness :
    cfgD.Valid ∧ (optimize [s4A] cfgD).2.chronology_fixes = 0 ∧
    List.Chain' (fun a b => a.start_time ≤ b.start_time) (optimize [s4A] cfgD).1 :=
  ⟨cfgD_valid, optimize_single_chronology,
    c2_sorted_without_chronology_fixes [s4A] cfgD cfgD_valid
      optimize_single_chronology⟩

/-- Witness for the amended C3 theorem on scenario S4's two-cue input. -/
theorem c3_min_gap_amended_witness :
    cfgD.Valid ∧ [s4A, s4B].map Subtitle.index = List.range [s4A, s4B].length ∧
    List.Chain' (gapOk (detect_original_overlaps [s4A, s4B]) cfgD)
      (optimize [s4A, s4B] cfgD).1 :=
  ⟨cfgD_valid, by decide,
    c3_min_gap_amended [s4A, s4B] cfgD cfgD_valid (by decide)⟩

end Subtuner










